import Mathlib

/-!
Verification of the mail retrieval → filtering → forwarding pipeline of the
`mail-controller-and-resender` repository.

Shallow embedding of:
  * `src/engine/services/base_mail_controller/core.py`
    (`fetch_unread_messages`, `extract_attachments`, `send_email_with_attachment`)
  * `src/engine/services/beget_mail_controller/core.py`
    (`process_incoming_emails`)

Python strings are modelled as Lean `String`; the external IMAP/SMTP/Telegram
collaborators are modelled as oracles recording which of their operations
succeed or raise; the orchestrator produces the trace of observable events
(notifications, IMAP STORE commands, session releases) that the spec talks
about.
-/

namespace MailResender

/-- Python truthiness of an `Optional[str]` value: `None` and `""` are falsy.
Models checks such as `if sender_filter:` and `same_subject and original_subject`
in `base_mail_controller/core.py`. -/
def pyTruthy : Option String → Bool
  | none => false
  | some s => s != ""

/-- Python's `str.lower()`, modelled as per-character case folding (the strings
compared case-insensitively in this program — addresses, header names and
filename patterns — fold per character). -/
def strLower (s : String) : String := ⟨s.data.map Char.toLower⟩

/-! ### Model of `email.utils.parseaddr` (address component)

`fetch_unread_messages` does `from_addr = parseaddr(from_header)[1]`.
For the header shapes relevant here (`addr`, `Display <addr>`, `<addr>`),
`parseaddr` returns the text between the first `<` and the following `>`
when angle brackets are present, and the whitespace-trimmed header otherwise. -/

/-- Characters after the first occurrence of a left angle bracket, if any. -/
def afterLt : List Char → Option (List Char)
  | [] => none
  | c :: rest => if c = '<' then some rest else afterLt rest

/-- Characters up to (excluding) the first right angle bracket. -/
def upToGt : List Char → List Char
  | [] => []
  | c :: rest => if c = '>' then [] else c :: upToGt rest

/-- The bare-address component of `parseaddr` for the common header shapes. -/
def parseaddrAddr (s : String) : String :=
  match afterLt s.data with
  | some rest => String.mk (upToGt rest)
  | none => s.trim

/-- The sender filter applied inside `fetch_unread_messages`
(`base_mail_controller/core.py` lines 96–109): when the configured filter is
truthy, the bare `From` address is compared case-insensitively against it;
otherwise every message passes. -/
def senderPasses (filt : Option String) (fromHeader : String) : Bool :=
  if pyTruthy filt then strLower (parseaddrAddr fromHeader) == strLower (filt.getD "")
  else true

/-! ### Model of `fnmatch.fnmatch` restricted to `*` / `?` / literal patterns

`extract_attachments` calls
`fnmatch.fnmatch(filename.lower(), target_filename_pattern.lower())`.
Character classes (`[...]`) are not used by any pattern in scope and are
modelled as literals. -/

/-- Glob matching over character lists: `*` matches any run (some suffix of the
subject must match the rest of the pattern), `?` any single character, anything
else itself; the match is anchored at both ends, as `fnmatch` is. -/
def globMatch : List Char → List Char → Bool
  | [], s => s.isEmpty
  | '*' :: ps, s => s.tails.any (fun t => globMatch ps t)
  | _ :: _, [] => false
  | '?' :: ps, _ :: cs => globMatch ps cs
  | p :: ps, c :: cs => p = c && globMatch ps cs

/-! ### Headers -/

/-- `msg.get(name, default)`: the first header whose name matches
case-insensitively, else the default (the `email.message` API is
case-insensitive on header names). -/
def msgGet (hs : List (String × String)) (name dflt : String) : String :=
  match hs.find? (fun p => strLower p.1 == strLower name) with
  | some p => p.2
  | none => dflt

/-! ### MIME model

A parsed message (`BytesParser(policy=policy.default).parsebytes(raw)`) is a
tree of parts.  Under `policy.default`, `part.get_filename()` already returns
the RFC-2047-decoded display string, and the explicit `decode_header` loop of
`extract_attachments` is the identity over it; both are modelled by
`decodeFrags` over the wire-level header fragments. -/

/-- One fragment of a possibly header-encoded filename, as produced by
`decode_header`: either a plain `str` fragment or a `bytes` fragment paired
(after `.decode(encoding or "utf-8")`) with its decoded text. -/
inductive HFrag
  | txt (s : String)
  | enc (decoded : String)
deriving DecidableEq, Repr

/-- The decoded text of one fragment (`fragment` resp. `fragment.decode(...)`). -/
def fragText : HFrag → String
  | .txt s => s
  | .enc s => s

/-- `decoded_filename`: concatenation of the decoded fragments, exactly the
accumulation loop of `extract_attachments` (lines 138–145). -/
def decodeFrags (fs : List HFrag) : String :=
  fs.foldl (fun acc f => acc ++ fragText f) ""

/-- A non-multipart MIME part. `ctype` is `get_content_type()`, `isAtt` is
`is_attachment()` (Content-Disposition: attachment), `filename` the wire-level
filename header (absent when `get_filename()` is `None`), `content` the decoded
content (`get_content()` / `get_payload(decode=True)`). -/
structure Leaf where
  ctype : String
  isAtt : Bool
  filename : Option (List HFrag)
  content : String
deriving DecidableEq, Repr

/-- A MIME tree: a leaf part or a multipart container.  Real multipart
containers have content type `multipart/...`, are never flagged as attachments
and have no content of their own. -/
inductive Mime
  | leaf (l : Leaf)
  | multi (parts : List Mime)

mutual

/-- `msg.walk()`: the part itself, then the depth-first walk of its subparts. -/
def walkM : Mime → List Mime
  | .leaf l => [.leaf l]
  | .multi ps => .multi ps :: walkList ps

/-- Depth-first walk of a list of subparts. -/
def walkList : List Mime → List Mime
  | [] => []
  | p :: rest => walkM p ++ walkList rest

end

/-- `get_content_type()`; multipart containers report a `multipart/...` type. -/
def mCtype : Mime → String
  | .leaf l => l.ctype
  | .multi _ => "multipart/mixed"

/-- `get_content() or ""` for a part reached in the body-extraction loop
(only leaves can match `text/plain` / `text/html`). -/
def mContent : Mime → String
  | .leaf l => l.content
  | .multi _ => ""

/-- The body-extraction loop of `process_incoming_emails`
(`beget_mail_controller/core.py` lines 78–83): first `text/plain` part wins
outright (break); a `text/html` part is taken only while the accumulator is
still empty, without breaking. -/
def bodyLoop : List Mime → String → String
  | [], acc => acc
  | p :: rest, acc =>
    if mCtype p = "text/plain" then mContent p
    else if mCtype p = "text/html" ∧ acc = "" then bodyLoop rest (mContent p)
    else bodyLoop rest acc

/-- Body extraction (`beget_mail_controller/core.py` lines 76–85): the walk
loop for a multipart message, the single payload otherwise. -/
def extractBody (m : Mime) : String :=
  match m with
  | .multi _ => bodyLoop (walkM m) ""
  | .leaf l => l.content

/-- Is this part `text/plain`? (predicate used to state the body invariant). -/
def isPlainPart (p : Mime) : Bool := mCtype p == "text/plain"

/-- Text of the first `text/html` part with non-empty text, `""` if none:
the value the body loop computes when no plain-text part exists. -/
def firstHtmlText : List Mime → String
  | [] => ""
  | p :: rest =>
    if mCtype p = "text/html" ∧ mContent p ≠ "" then mContent p
    else firstHtmlText rest

/-! ### `extract_attachments` (`base_mail_controller/core.py` lines 118–152) -/

/-- The per-part step of the `extract_attachments` loop: `None` for parts that
are skipped (`continue`), the `(decoded filename, payload)` pair otherwise. -/
def attachStep (pat : Option String) (p : Mime) : Option (String × String) :=
  match p with
  | .multi _ => none
  | .leaf l =>
    if l.isAtt then
      match l.filename with
      | none => none
      | some frags =>
        if decodeFrags frags = "" then none
        else if pyTruthy pat then
          if globMatch (strLower (pat.getD "")).data (strLower (decodeFrags frags)).data then
            some (decodeFrags frags, l.content)
          else none
        else some (decodeFrags frags, l.content)
    else none

/-- `extract_attachments`: walk all parts, keep attachment-flagged parts with a
non-empty decoded filename matching the (truthy) pattern case-insensitively. -/
def extract_attachments (m : Mime) (pat : Option String) : List (String × String) :=
  (walkM m).filterMap (attachStep pat)

/-! ### `send_email_with_attachment` (`base_mail_controller/core.py` lines 154–192) -/

/-- `final_subject = original_subject if same_subject and original_subject else subject`
(line 169): Python truthiness, so `None` and `""` both fall back to the default. -/
def final_subject (same_subject : Bool) (original_subject : Option String)
    (subject : String) : String :=
  if same_subject && pyTruthy original_subject then original_subject.getD "" else subject

/-- `final_body = original_body if same_body and original_body is not None else body`
(line 170): an explicit `is not None` test, so an empty original body is kept. -/
def final_body (same_body : Bool) (original_body : Option String)
    (body : String) : String :=
  if same_body && original_body.isSome then original_body.getD "" else body

/-- `maintype, subtype` chosen per attachment (lines 179–182). -/
def attContentType (filename : String) : String × String :=
  if ".zip".data.isSuffixOf (strLower filename).data then ("application", "zip")
  else ("application", "octet-stream")

/-- The outbound `EmailMessage` as observable data. -/
structure OutboundMsg where
  sender : String
  recipient : String
  subject : String
  body : String
  atts : List (String × (String × String) × String)
deriving DecidableEq, Repr

/-- `send_email_with_attachment`: builds the outbound message handed to
`smtp_conn.send_message`. -/
def send_email_with_attachment (sender recipient subject body : String)
    (attachments : List (String × String)) (same_subject : Bool)
    (original_subject : Option String) (same_body : Bool)
    (original_body : Option String) : OutboundMsg :=
  { sender := sender
    recipient := recipient
    subject := final_subject same_subject original_subject subject
    body := final_body same_body original_body body
    atts := attachments.map (fun a => (a.1, attContentType a.1, a.2)) }

/-! ### `fetch_unread_messages` (`base_mail_controller/core.py` lines 50–116)

The IMAP library is an oracle: whether SELECT and SEARCH succeed (a raised
exception and a non-`"OK"` status act identically — log and `return`), the
UID list the search reports, and the outcome of each per-UID FETCH. -/

/-- A raw message as the parser sees it: headers plus MIME tree. -/
structure RawMsg where
  headers : List (String × String)
  mime : Mime

/-- Outcome of `mail.fetch(uid, "(RFC822)")` for one UID. -/
inductive FetchRes
  | fetched (raw : RawMsg)
  | badStatus
  | emptyData
  | raisesErr

/-- Oracle for one IMAP session. -/
structure ImapOracle where
  selectOk : Bool
  searchOk : Bool
  uids : List String
  fetchOf : String → FetchRes

/-- The errors §4.1 of the spec says the reader raises.  The translated code
never produces them: every failure path logs and returns instead. -/
inductive MailError
  | mailboxError
  | searchError
deriving DecidableEq, Repr

/-- Per-UID step of the fetch loop (lines 83–116): failed or empty fetches and
filtered-out senders are skipped (`continue`); a raised exception is caught and
also skipped. -/
def fetchStep (o : ImapOracle) (filt : Option String) (uid : String) :
    Option (String × RawMsg) :=
  match o.fetchOf uid with
  | .fetched raw =>
    if senderPasses filt (msgGet raw.headers "From" "") then some (uid, raw) else none
  | _ => none

/-- `fetch_unread_messages` as a whole: the sequence of `(uid, raw)` pairs the
generator yields.  The `Except` layer carries the errors the spec claims; the
code's own failure paths all end in `return`, i.e. `.ok []`. -/
def fetch_unread_messages (o : ImapOracle) (filt : Option String) :
    Except MailError (List (String × RawMsg)) :=
  if o.selectOk = false then .ok []
  else if o.searchOk = false then .ok []
  else if o.uids = [] then .ok []
  else .ok (o.uids.filterMap (fetchStep o filt))

/-! ### Orchestrator (`beget_mail_controller/core.py` lines 42–161)

Per-candidate behaviour of the external collaborators: whether parsing /
extraction raises (lines 67–96 are not guarded per candidate), whether the SMTP
connect at lines 99–101 succeeds, whether `send_message` succeeds, whether the
IMAP `store` at lines 132/135 raises, and whether `smtp_conn.quit()` raises. -/

structure Cand where
  raw : RawMsg
  extractRaises : Bool
  smtpOk : Bool
  sendOk : Bool
  storeRaises : Bool
  quitRaises : Bool

/-- Observable events of one pass, in order of occurrence.  `store uid seen`
records the IMAP STORE: `seen = true` is `+FLAGS \Seen`, `seen = false` is
`-FLAGS \Seen`. -/
inductive Event
  | imapFailNote
  | noMessagesNote
  | startCand (uid : String)
  | noAttachNote (uid : String)
  | smtpFailNote (uid : String)
  | sendAttempt (uid : String)
  | successNote (uid : String)
  | failNote (uid : String)
  | store (uid : String) (seen : Bool)
  | quitCall (uid : String)
  | criticalNote
  | imapClose
deriving DecidableEq, Repr

/-- Configuration and environment of one pass. -/
structure PassInput where
  imapOk : Bool
  pattern : Option String
  setUnread : Bool
  cands : List (String × Cand)

/-- Processing of one candidate (lines 64–148).  The second component is `true`
when an exception escapes the candidate: extraction raising (not guarded per
candidate) or `smtp_conn.quit()` raising in the `finally` block.  A failing
store is caught by the `except` at line 138 and reported as a failure, after
the success notification was already sent. -/
def processOne (pat : Option String) (su : Bool) (uid : String) (b : Cand) :
    List Event × Bool :=
  if b.extractRaises then ([.startCand uid], true)
  else if extract_attachments b.raw.mime pat = [] then
    ([.startCand uid, .noAttachNote uid], false)
  else if b.smtpOk = false then ([.startCand uid, .smtpFailNote uid], false)
  else if b.sendOk then
    if b.storeRaises then
      ([.startCand uid, .sendAttempt uid, .successNote uid, .failNote uid,
        .quitCall uid], b.quitRaises)
    else
      ([.startCand uid, .sendAttempt uid, .successNote uid, .store uid (!su),
        .quitCall uid], b.quitRaises)
  else
    ([.startCand uid, .sendAttempt uid, .failNote uid, .quitCall uid], b.quitRaises)

/-- The candidate loop: an escaped exception aborts the remaining iterations
(it propagates to the `except` at line 150). -/
def processCands (pat : Option String) (su : Bool) :
    List (String × Cand) → List Event × Bool
  | [] => ([], false)
  | (uid, b) :: rest =>
    if (processOne pat su uid b).2 then processOne pat su uid b
    else
      ((processOne pat su uid b).1 ++ (processCands pat su rest).1,
       (processCands pat su rest).2)

/-- `process_incoming_emails`: IMAP connect failure aborts before the guarded
block (no close); otherwise the `finally` at line 156 always releases the
mailbox session, and an exception escaping the loop adds the critical-error
notification first. -/
def process_incoming_emails (inp : PassInput) : List Event :=
  if inp.imapOk = false then [.imapFailNote]
  else if inp.cands.isEmpty then [.noMessagesNote, .imapClose]
  else
    (processCands inp.pattern inp.setUnread inp.cands).1
      ++ (if (processCands inp.pattern inp.setUnread inp.cands).2 then
            [.criticalNote]
          else [])
      ++ [.imapClose]

/-! ## Theorems -/

/-- C5: the effective subject is the original subject when `same_subject` holds
and an original subject was supplied (non-empty, per the source's truthiness
check), else the default subject; the effective body is the original body when
`same_body` holds and an original body was supplied — even the explicitly empty
string — else the default body. -/
theorem c5_effective_subject_body (dS dB : String) :
    (∀ os : String, os ≠ "" → final_subject true (some os) dS = os) ∧
    final_subject true none dS = dS ∧
    (∀ os : Option String, final_subject false os dS = dS) ∧
    (∀ ob : String, final_body true (some ob) dB = ob) ∧
    final_body true none dB = dB ∧
    (∀ ob : Option String, final_body false ob dB = dB) := by
  refine ⟨fun os h => ?_, rfl, fun os => ?_, fun ob => ?_, rfl, fun ob => ?_⟩
  · simp [final_subject, pyTruthy, h]
  · simp [final_subject]
  · simp [final_body]
  · simp [final_body]

/-- Witness for C5 at concrete inputs. -/
theorem c5_witness :
    ("Report" ≠ "" ∧
      final_subject true (some "Report") "[Auto] Forwarded attachment" = "Report") ∧
    final_body true (some "") "default" = "" := by
  refine ⟨⟨by decide, ?_⟩, ?_⟩
  · exact (c5_effective_subject_body "[Auto] Forwarded attachment" "default").1
      "Report" (by decide)
  · exact (c5_effective_subject_body "[Auto] Forwarded attachment" "default").2.2.2.1 ""

/-- C10: with `same_subject` true an empty original subject falls back to the
default subject (Python truthiness), while an empty original body with
`same_body` true is inherited; a message with no `Subject` header gets the
orchestrator's placeholder `"[No Subject]"`, which then survives subject
inheritance instead of the default subject. -/
theorem c10_empty_subject_policy (d : String) (hs : List (String × String))
    (hnone : hs.find? (fun p => strLower p.1 == strLower "Subject") = none) :
    final_subject true (some "") d = d ∧
    final_body true (some "") d = "" ∧
    final_subject true (some (msgGet hs "Subject" "[No Subject]")) d
      = "[No Subject]" := by
  refine ⟨by simp [final_subject, pyTruthy], by simp [final_body], ?_⟩
  have h : msgGet hs "Subject" "[No Subject]" = "[No Subject]" := by
    simp [msgGet, hnone]
  rw [h]
  rfl

/-- Witness for C10 at a concrete header list with no Subject header. -/
theorem c10_witness :
    ([("From", "a@x.com")] : List (String × String)).find?
        (fun p => strLower p.1 == strLower "Subject") = none ∧
    final_subject true
      (some (msgGet [("From", "a@x.com")] "Subject" "[No Subject]")) "[Auto]"
      = "[No Subject]" :=
  ⟨by decide,
    (c10_empty_subject_policy "[Auto]" [("From", "a@x.com")] (by decide)).2.2⟩

/-- Concrete raw message with one zip attachment, used by the orchestrator
examples. -/
def exRaw : RawMsg :=
  { headers := [("From", "vector@x.com"), ("Subject", "Report")]
    mime := Mime.multi [
      Mime.leaf { ctype := "text/plain", isAtt := false, filename := none,
                  content := "hello" },
      Mime.leaf { ctype := "application/zip", isAtt := true,
                  filename := some [HFrag.txt "data.zip"], content := "PK" } ] }

/-- Pass in which the single candidate's send succeeds but the subsequent
seen-flag STORE raises. -/
def storeFailInput : PassInput :=
  { imapOk := true, pattern := none, setUnread := false,
    cands := [("9", { raw := exRaw, extractRaises := false, smtpOk := true,
                      sendOk := true, storeRaises := true, quitRaises := false })] }

/-- C9: when the send succeeds but the seen-flag store raises, the pass emits
both a success and a failure notification for that one message, and no STORE
takes effect, so its read-state is unchanged despite the successful forward. -/
theorem c9_store_failure_double_notification :
    Event.successNote "9" ∈ process_incoming_emails storeFailInput ∧
    Event.failNote "9" ∈ process_incoming_emails storeFailInput ∧
    Event.store "9" true ∉ process_incoming_emails storeFailInput ∧
    Event.store "9" false ∉ process_incoming_emails storeFailInput := by
  decide

/-- IMAP oracle whose INBOX SELECT fails. -/
def selectFailOracle : ImapOracle :=
  { selectOk := false, searchOk := true, uids := ["5"],
    fetchOf := fun _ => .raisesErr }

/-- Counterexample to C2: when the inbox cannot be selected,
`fetch_unread_messages` yields the empty sequence and raises no
`MailboxError` — the failure is logged and swallowed. -/
theorem c2_select_failure_not_mailbox_error :
    fetch_unread_messages selectFailOracle (some "boss@x.com") = .ok [] ∧
    ∀ e : MailError,
      fetch_unread_messages selectFailOracle (some "boss@x.com") ≠ .error e := by
  refine ⟨rfl, fun e h => ?_⟩
  rw [show fetch_unread_messages selectFailOracle (some "boss@x.com") = .ok []
      from rfl] at h
  exact Except.noConfusion h

/-- C2 amended: a failed SELECT, a failed UNSEEN search, and an UNSEEN search
with no matches all make `fetch_unread_messages` yield the empty sequence, with
no error raised. -/
theorem c2_select_search_errors_yield_empty (o : ImapOracle) (filt : Option String) :
    (o.selectOk = false → fetch_unread_messages o filt = .ok []) ∧
    (o.searchOk = false → fetch_unread_messages o filt = .ok []) ∧
    (o.uids = [] → fetch_unread_messages o filt = .ok []) := by
  refine ⟨fun h => by simp [fetch_unread_messages, h], fun h => ?_, fun h => ?_⟩
  · by_cases h1 : o.selectOk = false <;> simp [fetch_unread_messages, h1, h]
  · by_cases h1 : o.selectOk = false <;> by_cases h2 : o.searchOk = false <;>
      simp [fetch_unread_messages, h1, h2, h]

/-- IMAP oracle whose UNSEEN search fails with a protocol error. -/
def searchFailOracle : ImapOracle :=
  { selectOk := true, searchOk := false, uids := ["1", "2"],
    fetchOf := fun _ => .badStatus }

/-- Witness for the amended C2 at a concrete search-failure oracle. -/
theorem c2_witness :
    searchFailOracle.searchOk = false ∧
    fetch_unread_messages searchFailOracle none = .ok [] :=
  ⟨rfl, (c2_select_search_errors_yield_empty searchFailOracle none).2.1 rfl⟩

/-- If the loop's part list contains a `text/plain` part, the body loop returns
the content of the first one, whatever was accumulated so far. -/
theorem bodyLoop_find_plain (l : List Mime) (p : Mime)
    (h : l.find? isPlainPart = some p) :
    ∀ acc, bodyLoop l acc = mContent p := by
  induction l with
  | nil => simp at h
  | cons q rest ih =>
    intro acc
    by_cases hq : isPlainPart q
    · rw [List.find?_cons_of_pos _ hq] at h
      have hqp : q = p := by injection h
      subst hqp
      have hq' : mCtype q = "text/plain" := by simpa [isPlainPart] using hq
      simp [bodyLoop, hq']
    · rw [List.find?_cons_of_neg _ hq] at h
      have hq' : ¬mCtype q = "text/plain" := by simpa [isPlainPart] using hq
      simp only [bodyLoop, if_neg hq']
      by_cases hh : mCtype q = "text/html" ∧ acc = ""
      · rw [if_pos hh]; exact ih h _
      · rw [if_neg hh]; exact ih h _

/-- If no `text/plain` part occurs, the body loop keeps a non-empty accumulator
and otherwise returns the first non-empty `text/html` content. -/
theorem bodyLoop_no_plain (l : List Mime) (h : ∀ p ∈ l, isPlainPart p = false) :
    ∀ acc, bodyLoop l acc = if acc = "" then firstHtmlText l else acc := by
  induction l with
  | nil =>
    intro acc
    by_cases hacc : acc = "" <;> simp [bodyLoop, firstHtmlText, hacc]
  | cons q rest ih =>
    intro acc
    have hq : ¬mCtype q = "text/plain" := by
      have := h q (List.mem_cons_self q rest)
      simpa [isPlainPart] using this
    have hrest : ∀ p ∈ rest, isPlainPart p = false :=
      fun p hp => h p (List.mem_cons_of_mem _ hp)
    simp only [bodyLoop, if_neg hq]
    by_cases hh : mCtype q = "text/html" ∧ acc = ""
    · rw [if_pos hh, ih hrest (mContent q)]
      obtain ⟨hhtml, hacc⟩ := hh
      subst hacc
      rw [if_pos rfl]
      simp only [firstHtmlText]
      by_cases hc : mContent q = ""
      · rw [if_pos hc, if_neg (by simp [hc])]
      · rw [if_neg hc, if_pos ⟨hhtml, hc⟩]
    · rw [if_neg hh, ih hrest acc]
      by_cases hacc : acc = ""
      · subst hacc
        rw [if_pos rfl, if_pos rfl]
        have hnh : ¬mCtype q = "text/html" := fun hc => hh ⟨hc, rfl⟩
        simp [firstHtmlText, hnh]
      · rw [if_neg hacc, if_neg hacc]

/-- C3 amended: for a multipart message, the body is the content of the first
`text/plain` part of the depth-first walk (a later plain part beats any earlier
HTML part); when no plain-text part exists, the body is the text of the first
HTML part **with non-empty text** — an HTML part whose text is empty is passed
over in favour of a later one — and `""` when there is none; for a
non-multipart message the single payload is the body. -/
theorem c3_body_selection_amended (ps : List Mime) (l : Leaf) :
    (∀ p : Mime, (walkM (Mime.multi ps)).find? isPlainPart = some p →
        extractBody (Mime.multi ps) = mContent p) ∧
    ((walkM (Mime.multi ps)).find? isPlainPart = none →
        extractBody (Mime.multi ps) = firstHtmlText (walkM (Mime.multi ps))) ∧
    extractBody (Mime.leaf l) = l.content := by
  refine ⟨fun p h => ?_, fun h => ?_, rfl⟩
  · simpa [extractBody] using bodyLoop_find_plain _ p h ""
  · have hall : ∀ p ∈ walkM (Mime.multi ps), isPlainPart p = false := by
      intro p hp
      have := List.find?_eq_none.mp h p hp
      simpa using this
    simpa [extractBody] using bodyLoop_no_plain _ hall ""

/-- Multipart message whose first HTML part has empty text and whose second
HTML part has text `"second"`; it has no plain-text part. -/
def twoHtmlMsg : Mime := Mime.multi [
  Mime.leaf { ctype := "text/html", isAtt := false, filename := none,
              content := "" },
  Mime.leaf { ctype := "text/html", isAtt := false, filename := none,
              content := "second" } ]

/-- The first HTML part of `twoHtmlMsg`. -/
def firstHtmlPart : Mime :=
  Mime.leaf { ctype := "text/html", isAtt := false, filename := none,
              content := "" }

/-- Counterexample to C3 as stated: `twoHtmlMsg` has no plain-text part, its
first HTML part's text is `""`, yet the extracted body is `"second"` (the
second HTML part's text), not the first HTML part's text. -/
theorem c3_first_html_not_used_when_empty :
    (walkM twoHtmlMsg).find? isPlainPart = none ∧
    (walkM twoHtmlMsg).find? (fun p => mCtype p == "text/html")
      = some firstHtmlPart ∧
    mContent firstHtmlPart = "" ∧
    extractBody twoHtmlMsg = "second" :=
  ⟨rfl, rfl, rfl, rfl⟩

/-- The plain-text part of the witness message for C3. -/
def plainPartW : Mime :=
  Mime.leaf { ctype := "text/plain", isAtt := false, filename := none,
              content := "p" }

/-- Subparts of the witness message: an HTML part before a plain part. -/
def htmlThenPlain : List Mime :=
  [Mime.leaf { ctype := "text/html", isAtt := false, filename := none,
               content := "h" },
   plainPartW]

/-- Witness for the amended C3: with an HTML part before the plain part, the
plain part still supplies the body. -/
theorem c3_witness :
    (walkM (Mime.multi htmlThenPlain)).find? isPlainPart = some plainPartW ∧
    extractBody (Mime.multi htmlThenPlain) = mContent plainPartW :=
  ⟨rfl,
    (c3_body_selection_amended htmlThenPlain
      { ctype := "x", isAtt := false, filename := none, content := "" }).1
      plainPartW rfl⟩

/-- C6: attachment extraction returns exactly the walked parts that are
explicitly flagged as attachments and carry a filename whose header-decoded
display form is non-empty; matching and the returned name both use the decoded
form; a truthy pattern is matched case-insensitively with glob semantics and an
absent (or empty, hence falsy) pattern accepts every attachment; with no match
the result is simply the empty list. -/
theorem c6_attachment_extraction (m : Mime) (pat : Option String) (nm c : String) :
    (nm, c) ∈ extract_attachments m pat ↔
      ∃ l : Leaf, Mime.leaf l ∈ walkM m ∧ l.isAtt = true ∧
        (∃ frags, l.filename = some frags ∧ decodeFrags frags = nm) ∧
        nm ≠ "" ∧ c = l.content ∧
        (pyTruthy pat = false ∨
          globMatch (strLower (pat.getD "")).data (strLower nm).data = true) := by
  rw [extract_attachments, List.mem_filterMap]
  constructor
  · rintro ⟨p, hp, hstep⟩
    cases p with
    | multi ps => simp [attachStep] at hstep
    | leaf l =>
      obtain ⟨ct, att, fn, cont⟩ := l
      refine ⟨⟨ct, att, fn, cont⟩, hp, ?_⟩
      cases att with
      | false => simp [attachStep] at hstep
      | true =>
        cases fn with
        | none => simp [attachStep] at hstep
        | some frags =>
          simp only [attachStep] at hstep
          by_cases hne : decodeFrags frags = ""
          · rw [if_pos hne] at hstep; cases hstep
          rw [if_neg hne] at hstep
          by_cases hpt : pyTruthy pat
          · rw [if_pos hpt] at hstep
            by_cases hg : globMatch (strLower (pat.getD "")).data
                (strLower (decodeFrags frags)).data
            · rw [if_pos hg] at hstep
              obtain ⟨h1, h2⟩ : decodeFrags frags = nm ∧ cont = c := by
                simpa using hstep
              exact ⟨rfl, ⟨frags, rfl, h1⟩, h1 ▸ hne, h2.symm,
                Or.inr (by rw [← h1]; exact hg)⟩
            · rw [if_neg hg] at hstep; cases hstep
          · rw [if_neg hpt] at hstep
            obtain ⟨h1, h2⟩ : decodeFrags frags = nm ∧ cont = c := by
              simpa using hstep
            exact ⟨rfl, ⟨frags, rfl, h1⟩, h1 ▸ hne, h2.symm,
              Or.inl (by simpa using hpt)⟩
  · rintro ⟨l, hmem, hatt, ⟨frags, hfn, hdec⟩, hne, hc, hcond⟩
    refine ⟨.leaf l, hmem, ?_⟩
    subst hdec
    subst hc
    simp only [attachStep, if_pos hatt, hfn]
    rw [if_neg hne]
    rcases hcond with hfalse | hg
    · rw [if_neg (by simp [hfalse])]
    · by_cases hp : pyTruthy pat
      · rw [if_pos hp, if_pos hg]
      · rw [if_neg hp]

/-- The attachment leaf of the C6 witness message: flagged as an attachment,
with a header-encoded filename decoding to `отчёт.ZIP`. -/
def attLeafW : Leaf :=
  { ctype := "application/zip", isAtt := true,
    filename := some [HFrag.enc "отчёт", HFrag.txt ".ZIP"], content := "PK" }

/-- C6 witness message: a plain body part plus one flagged attachment. -/
def attMsgW : Mime := Mime.multi [
  Mime.leaf { ctype := "text/plain", isAtt := false, filename := none,
              content := "hi" },
  Mime.leaf attLeafW ]

/-- Witness for C6: the decoded, case-insensitively glob-matched attachment is
returned for the pattern `*.zip`. -/
theorem c6_witness :
    ("отчёт.ZIP", "PK") ∈ extract_attachments attMsgW (some "*.zip") := by
  apply (c6_attachment_extraction attMsgW (some "*.zip") "отчёт.ZIP" "PK").mpr
  refine ⟨attLeafW, ?_, rfl, ⟨[HFrag.enc "отчёт", HFrag.txt ".ZIP"], rfl, by decide⟩,
    by decide, rfl, Or.inr (by decide)⟩
  rw [show walkM attMsgW =
    [attMsgW,
     Mime.leaf { ctype := "text/plain", isAtt := false, filename := none,
                 content := "hi" },
     Mime.leaf attLeafW] from rfl]
  exact List.Mem.tail _ (List.Mem.tail _ (List.Mem.head _))

/-- `afterLt` skips any prefix free of `<` and returns what follows the first
one. -/
theorem afterLt_append (xs ys : List Char) (h : '<' ∉ xs) :
    afterLt (xs ++ '<' :: ys) = some ys := by
  induction xs with
  | nil => simp [afterLt]
  | cons x rest ih =>
    have hx : ¬x = '<' := fun hc => h (hc ▸ List.mem_cons_self x rest)
    simp only [List.cons_append, afterLt, if_neg hx]
    exact ih fun hm => h (List.mem_cons_of_mem _ hm)

/-- `upToGt` returns any prefix free of `>` up to the first one. -/
theorem upToGt_append (ys : List Char) (h : '>' ∉ ys) :
    upToGt (ys ++ ['>']) = ys := by
  induction ys with
  | nil => simp [upToGt]
  | cons y rest ih =>
    have hy : ¬y = '>' := fun hc => h (hc ▸ List.mem_cons_self y rest)
    simp only [List.cons_append, upToGt, if_neg hy]
    exact congrArg (y :: ·) (ih fun hm => h (List.mem_cons_of_mem _ hm))

/-- C7: with no configured expected address every message passes the filter;
for a `From` header of the form `display <addr>` the extracted bare address is
`addr` regardless of the display name, and a configured (non-empty) filter
compares that bare address case-insensitively. -/
theorem c7_sender_filter (display addr f : String)
    (hd : '<' ∉ display.data) (ha : '>' ∉ addr.data) (hf : f ≠ "") :
    (∀ h : String, senderPasses none h = true) ∧
    parseaddrAddr (display ++ "<" ++ addr ++ ">") = addr ∧
    senderPasses (some f) (display ++ "<" ++ addr ++ ">")
      = (strLower addr == strLower f) := by
  have hdata : (display ++ "<" ++ addr ++ ">").data
      = display.data ++ '<' :: (addr.data ++ ['>']) := by
    simp [String.data_append]
  have haddr : parseaddrAddr (display ++ "<" ++ addr ++ ">") = addr := by
    rw [parseaddrAddr, hdata, afterLt_append _ _ hd]
    show String.mk (upToGt (addr.data ++ ['>'])) = addr
    rw [upToGt_append _ ha]
  refine ⟨fun h => rfl, haddr, ?_⟩
  rw [senderPasses, if_pos (by simpa [pyTruthy] using hf), haddr]
  rfl

/-- Witness for C7: a display name around the address is ignored and the
comparison with the expected address is case-insensitive. -/
theorem c7_witness :
    '<' ∉ "John Doe".data ∧ '>' ∉ "Boss@X.com".data ∧
    parseaddrAddr ("John Doe" ++ "<" ++ "Boss@X.com" ++ ">") = "Boss@X.com" ∧
    senderPasses (some "boss@x.COM") ("John Doe" ++ "<" ++ "Boss@X.com" ++ ">")
      = true := by
  have h := c7_sender_filter "John Doe" "Boss@X.com" "boss@x.COM"
    (by decide) (by decide) (by decide)
  exact ⟨by decide, by decide, h.2.1, by rw [h.2.2]; decide⟩

/-- C4: once a candidate reaches the forwarding step (attachments present,
transport connected), a successful send yields the success notification and,
when the subsequent store does not itself raise, the STORE dictated by the
`set_unread` policy (`set_unread = true` clears `\Seen`, restoring unread
state; `set_unread = false` sets it); a failed send yields the failure
notification and no STORE at all; in both cases the transport session is
released (`quit` is called). -/
theorem c4_send_outcome_policy (pat : Option String) (su : Bool) (uid : String)
    (b : Cand) (hx : b.extractRaises = false)
    (ha : extract_attachments b.raw.mime pat ≠ []) (hs : b.smtpOk = true) :
    (b.sendOk = true → b.storeRaises = false →
      Event.successNote uid ∈ (processOne pat su uid b).1 ∧
      Event.store uid (!su) ∈ (processOne pat su uid b).1) ∧
    (b.sendOk = false →
      Event.failNote uid ∈ (processOne pat su uid b).1 ∧
      ∀ fl : Bool, Event.store uid fl ∉ (processOne pat su uid b).1) ∧
    Event.quitCall uid ∈ (processOne pat su uid b).1 := by
  unfold processOne
  rw [if_neg (by simp [hx]), if_neg ha, if_neg (by simp [hs])]
  refine ⟨fun hsend hst => ?_, fun hsend => ?_, ?_⟩
  · rw [if_pos hsend, if_neg (by simp [hst])]
    exact ⟨by simp, by simp⟩
  · rw [if_neg (by simp [hsend])]
    exact ⟨by simp, fun fl => by simp⟩
  · by_cases h1 : b.sendOk = true
    · rw [if_pos h1]
      by_cases h2 : b.storeRaises = true
      · rw [if_pos h2]; simp
      · rw [if_neg h2]; simp
    · rw [if_neg h1]; simp

/-- Candidate whose whole per-message pipeline succeeds. -/
def okCand : Cand :=
  { raw := exRaw, extractRaises := false, smtpOk := true, sendOk := true,
    storeRaises := false, quitRaises := false }

/-- Witness for C4: with `set_unread = true`, a successful send produces the
success notification, a `-FLAGS \Seen` store and the transport release. -/
theorem c4_witness :
    extract_attachments okCand.raw.mime none ≠ [] ∧
    Event.successNote "4" ∈ (processOne none true "4" okCand).1 ∧
    Event.store "4" false ∈ (processOne none true "4" okCand).1 ∧
    Event.quitCall "4" ∈ (processOne none true "4" okCand).1 := by
  have h := c4_send_outcome_policy none true "4" okCand rfl (by decide) rfl
  exact ⟨by decide, (h.1 rfl rfl).1, (h.1 rfl rfl).2, h.2.2⟩

/-- C8: a candidate whose extraction finds no attachment matching the pattern
produces exactly the start-of-processing log and one "no attachment"
notification — no send attempt, no flag change — and the loop moves on to the
remaining candidates. -/
theorem c8_no_attachment_skip (pat : Option String) (su : Bool) (uid : String)
    (b : Cand) (rest : List (String × Cand))
    (hx : b.extractRaises = false)
    (ha : extract_attachments b.raw.mime pat = []) :
    processOne pat su uid b = ([.startCand uid, .noAttachNote uid], false) ∧
    Event.sendAttempt uid ∉ (processOne pat su uid b).1 ∧
    (∀ fl : Bool, Event.store uid fl ∉ (processOne pat su uid b).1) ∧
    processCands pat su ((uid, b) :: rest)
      = ((processOne pat su uid b).1 ++ (processCands pat su rest).1,
         (processCands pat su rest).2) := by
  have h1 : processOne pat su uid b = ([.startCand uid, .noAttachNote uid], false) := by
    unfold processOne
    rw [if_neg (by simp [hx]), if_pos ha]
  refine ⟨h1, by rw [h1]; simp, fun fl => by rw [h1]; simp, ?_⟩
  simp only [processCands]
  rw [if_neg (by rw [h1]; exact Bool.false_ne_true)]

/-- Message with no attachment parts at all. -/
def noAttRaw : RawMsg :=
  { headers := [("From", "vector@x.com"), ("Subject", "Plain mail")]
    mime := Mime.multi [
      Mime.leaf { ctype := "text/plain", isAtt := false, filename := none,
                  content := "just text" } ] }

/-- Candidate carrying `noAttRaw`. -/
def noAttCand : Cand :=
  { raw := noAttRaw, extractRaises := false, smtpOk := true, sendOk := true,
    storeRaises := false, quitRaises := false }

/-- Witness for C8: for a no-attachment candidate followed by another
candidate, processing of the second one still happens. -/
theorem c8_witness :
    extract_attachments noAttCand.raw.mime (some "*.zip") = [] ∧
    processOne (some "*.zip") false "7" noAttCand
      = ([.startCand "7", .noAttachNote "7"], false) ∧
    processCands (some "*.zip") false [("7", noAttCand), ("8", okCand)]
      = ((processOne (some "*.zip") false "7" noAttCand).1
          ++ (processCands (some "*.zip") false [("8", okCand)]).1,
         (processCands (some "*.zip") false [("8", okCand)]).2) := by
  have h := c8_no_attachment_skip (some "*.zip") false "7" noAttCand
    [("8", okCand)] rfl (by decide)
  exact ⟨by decide, h.1, h.2.2.2⟩

/-- Every branch of per-candidate processing begins by logging the candidate. -/
theorem startCand_mem_processOne (pat : Option String) (su : Bool)
    (uid : String) (b : Cand) :
    Event.startCand uid ∈ (processOne pat su uid b).1 := by
  unfold processOne
  split
  · simp
  . split
    · simp
    · split
      · simp
      · split
        · split <;> simp
        · simp

/-- A candidate whose extraction and transport release do not raise never
aborts the loop, whatever else fails. -/
theorem processOne_no_abort (pat : Option String) (su : Bool) (uid : String)
    (b : Cand) (hx : b.extractRaises = false) (hq : b.quitRaises = false) :
    (processOne pat su uid b).2 = false := by
  unfold processOne
  rw [if_neg (by simp [hx])]
  split
  · rfl
  · split
    · rfl
    · split
      · split <;> simp [hq]
      · simp [hq]

/-- When no candidate aborts, every candidate is reached by the loop. -/
theorem processCands_all_started (pat : Option String) (su : Bool)
    (cands : List (String × Cand))
    (h : ∀ p ∈ cands, p.2.extractRaises = false ∧ p.2.quitRaises = false) :
    ∀ p ∈ cands, Event.startCand p.1 ∈ (processCands pat su cands).1 := by
  induction cands with
  | nil => intro p hp; cases hp
  | cons q rest ih =>
    intro p hp
    obtain ⟨uid, b⟩ := q
    have hq := h (uid, b) (List.mem_cons_self _ _)
    have habort := processOne_no_abort pat su uid b hq.1 hq.2
    simp only [processCands]
    rw [if_neg (by rw [habort]; exact Bool.false_ne_true)]
    rcases List.mem_cons.mp hp with heq | hmem
    · subst heq
      exact List.mem_append_left _ (startCand_mem_processOne pat su uid b)
    · exact List.mem_append_right _
        (ih (fun r hr => h r (List.mem_cons_of_mem _ hr)) p hmem)

/-- C1 amended: whenever the mailbox connection succeeded, the final
mailbox-session release is performed on every path; and when no candidate's
extraction or transport-session release raises, every candidate is processed —
exceptions while connecting transport, sending, or updating flags are confined
to their candidate.  (An exception during extraction or during
`smtp_conn.quit()` does abort the remaining candidates; see the
counterexample.) -/
theorem c1_failure_isolation_amended (inp : PassInput)
    (him : inp.imapOk = true) :
    Event.imapClose ∈ process_incoming_emails inp ∧
    ((∀ p ∈ inp.cands, p.2.extractRaises = false ∧ p.2.quitRaises = false) →
      ∀ p ∈ inp.cands, Event.startCand p.1 ∈ process_incoming_emails inp) := by
  unfold process_incoming_emails
  rw [if_neg (by simp [him])]
  by_cases hc : inp.cands.isEmpty
  · rw [if_pos hc]
    refine ⟨by simp, fun _ p hp => ?_⟩
    rw [List.isEmpty_iff.mp hc] at hp
    cases hp
  · rw [if_neg hc]
    refine ⟨by simp, fun h p hp => ?_⟩
    exact List.mem_append_left _ (List.mem_append_left _
      (processCands_all_started _ _ _ h p hp))

/-- Candidate whose send fails (a candidate-level error the code catches). -/
def sendFailCand : Cand :=
  { raw := exRaw, extractRaises := false, smtpOk := true, sendOk := false,
    storeRaises := false, quitRaises := false }

/-- A pass whose first candidate fails to send and whose second succeeds. -/
def isolatedInput : PassInput :=
  { imapOk := true, pattern := none, setUnread := false,
    cands := [("a", sendFailCand), ("b", okCand)] }

/-- Witness for the amended C1: a send failure on the first candidate does not
prevent the second from being processed, and the mailbox is released. -/
theorem c1_witness :
    Event.imapClose ∈ process_incoming_emails isolatedInput ∧
    Event.startCand "b" ∈ process_incoming_emails isolatedInput := by
  have h := c1_failure_isolation_amended isolatedInput rfl
  refine ⟨h.1, h.2 ?_ ("b", okCand) (List.Mem.tail _ (List.Mem.head _))⟩
  intro p hp
  cases hp with
  | head => exact ⟨rfl, rfl⟩
  | tail _ hp2 =>
    cases hp2 with
    | head => exact ⟨rfl, rfl⟩
    | tail _ hp3 => cases hp3

/-- Candidate whose subject/body/attachment extraction raises — lines 67–96 of
`process_incoming_emails` are not guarded per candidate. -/
def extractFailCand : Cand :=
  { raw := exRaw, extractRaises := true, smtpOk := true, sendOk := true,
    storeRaises := false, quitRaises := false }

/-- Pass whose first candidate's extraction raises; a healthy candidate
follows. -/
def abortedInput : PassInput :=
  { imapOk := true, pattern := none, setUnread := false,
    cands := [("1", extractFailCand), ("2", okCand)] }

/-- Counterexample to C1 as stated: an exception while extracting the first
candidate's content prevents the second candidate from being processed (the
exception escapes to the pass-level handler, which emits the critical-error
notification); the final mailbox release does still happen. -/
theorem c1_extract_exception_aborts_batch :
    Event.startCand "2" ∉ process_incoming_emails abortedInput ∧
    Event.criticalNote ∈ process_incoming_emails abortedInput ∧
    Event.imapClose ∈ process_incoming_emails abortedInput := by
  decide

end MailResender
